import Mathlib

/-!
Verification development for the UK air-quality collection app (`app.py`).

The program fetches JSON payloads from an upstream HTTP API, extracts
pollutant values (dropping the `"-999"` sentinel and non-numeric fields),
classifies each (site, pollutant, period) task as success / no_data / failed,
and renders gap-filled time series per resolution (annual, monthly, daily,
hourly).

Modelling conventions:
* JSON payloads are a `Json` inductive; Python `None` is `Json.null`,
  Python truthiness is `truthy`.
* Machine floats are modelled as exact rationals (`ℚ`); `float(x)` is
  `pyFloat`, which distinguishes a `ValueError` (unparseable string, caught
  by the inner `except ValueError` handlers) from a `TypeError`
  (non-string non-number operand, which in `extract_pollutant_data`
  propagates to the outer `except Exception` handler).
* `pd.to_datetime` is abstracted to an integer minute timeline
  (`parseDatetime`); calendar dates are minute counts divided by 1440.
* Structural exceptions swallowed by the outer `except Exception` blocks
  are an explicit `Except Unit` channel; the `.error ()` outcome collapses
  to `None` / `[]` exactly where the handlers sit in the source.
* `pandas` stable machinery (`sort_values`, `groupby`, `date_range`,
  `unique`) is modelled by `List.insertionSort`, `dedupSorted`,
  `dateRange`, `uniqueInOrder`.
-/

/-- JSON value, the shape of the API payloads (`response.json()` output).
`null` doubles as Python `None` (the miss default of `dict.get`). -/
inductive Json where
  | null
  | str (s : String)
  | num (q : ℚ)
  | arr (elems : List Json)
  | obj (fields : List (String × Json))

/-- Python truthiness for `Json` values: `None`, `""`, `0`, `[]`, `{}` are falsy. -/
def truthy : Json → Bool
  | .null => false
  | .str s => s ≠ ""
  | .num q => q ≠ 0
  | .arr elems => !elems.isEmpty
  | .obj fields => !fields.isEmpty

/-- First binding of a key in an association list (JSON object fields). -/
def jFind : List (String × Json) → String → Option Json
  | [], _ => none
  | (k, v) :: rest, key => if k = key then some v else jFind rest key

/-- Python `d.get(key)` on a dict: the stored value, or `None` when absent.
Only used on values already matched as `.obj`. -/
def jget (j : Json) (key : String) : Json :=
  match j with
  | .obj fields => (jFind fields key).getD Json.null
  | _ => Json.null

/-- Python `d.get(key, dflt)` on a dict with an explicit default. -/
def jgetD (j : Json) (key : String) (dflt : Json) : Json :=
  match j with
  | .obj fields => (jFind fields key).getD dflt
  | _ => dflt

/-- Python `j == s` for a string literal `s`: true only when `j` is that string
(comparison between a string and any other type is `False`, no exception). -/
def jEqStr (j : Json) (s : String) : Bool :=
  match j with
  | .str t => t = s
  | _ => false

/-- Python `s.startswith(pre)`. -/
def strStartsWith (s pre : String) : Bool := pre.toList.isPrefixOf s.toList

/-- Decimal value of a digit string (as a character list). -/
def digitsVal (l : List Char) : Nat := l.foldl (fun a c => 10 * a + (c.toNat - 48)) 0

/-- Split a character list on a separator character (like `str.split`). -/
def splitOnChar (c : Char) : List Char → List (List Char)
  | [] => [[]]
  | x :: rest =>
    match splitOnChar c rest with
    | [] => [[]]
    | h :: t => if x = c then [] :: h :: t else (x :: h) :: t

/-- All characters are ASCII digits. -/
def allDigits (l : List Char) : Bool := l.all Char.isDigit

/-- Unsigned decimal parse: digits with at most one dot, at least one digit. -/
def parseUnsigned (l : List Char) : Option ℚ :=
  match splitOnChar '.' l with
  | [a] => if a ≠ [] ∧ allDigits a then some (digitsVal a : ℚ) else none
  | [a, b] =>
      if allDigits a ∧ allDigits b ∧ (a ≠ [] ∨ b ≠ []) then
        some ((digitsVal a : ℚ) + (digitsVal b : ℚ) / (10 : ℚ) ^ b.length)
      else none
  | _ => none

/-- Model of Python `float(s)` on a string: plain decimal literals with an
optional leading minus; anything else is a `ValueError` (`none`). -/
def parseFloat (s : String) : Option ℚ :=
  match s.toList with
  | [] => none
  | c :: rest => if c = '-' then (parseUnsigned rest).map (fun q => -q) else parseUnsigned (c :: rest)

/-- Outcome of Python `float(x)` on an arbitrary value. -/
inductive PyFloat where
  | val (q : ℚ)
  | valueError
  | typeError
  deriving DecidableEq, Repr

/-- Python `float(x)`: strings parse or raise `ValueError`; numbers convert;
`None`, lists and dicts raise `TypeError`. -/
def pyFloat : Json → PyFloat
  | .str s =>
      match parseFloat s with
      | some q => .val q
      | none => .valueError
  | .num q => .val q
  | .null => .typeError
  | .arr _ => .typeError
  | .obj _ => .typeError

/-- Model of `pd.to_datetime`: timestamps are abstracted to an integer minute
timeline. A digit string parses to its minute count, an integral number
converts, anything else raises (`none`, caught by the per-item handler). -/
def parseDatetime : Json → Option Int
  | .str s =>
      match s.toList with
      | [] => none
      | l => if allDigits l then some (digitsVal l : Int) else none
  | .num q => if q.den = 1 then some q.num else none
  | _ => none

/-- Result of `extract_pollutant_data`: an annual aggregate or a sparse
month-number-to-value mapping (app.py lines 122 and 142). -/
inductive ExtractResult where
  | annual (v : ℚ)
  | monthly (m : List (Nat × ℚ))
  deriving DecidableEq, Repr

/-- The `pollutant_mapping` table (app.py lines 100-104): species code and
report-item identifier per pollutant type. -/
def pollutant_mapping (pollutant_type : String) : Option (String × String) :=
  if pollutant_type = "PM10" then some ("PM10", "7")
  else if pollutant_type = "PM25" then some ("PM25", "7")
  else if pollutant_type = "NO2" then some ("NO2", "7")
  else none

/-- The compound line-item match of app.py lines 114-116: species code,
report-item id, and a `"Mean:"` name prefix. A non-dict item or a non-string
`@ReportItemName` raises (caught by the outer handler). -/
def itemMatches (item : Json) (species ritem : String) : Except Unit Bool :=
  match item with
  | .obj _ =>
      if jEqStr (jget item "@SpeciesCode") species ∧ jEqStr (jget item "@ReportItem") ritem then
        match jgetD item "@ReportItemName" (Json.str "") with
        | .str s => .ok (strStartsWith s "Mean:")
        | _ => .error ()
      else .ok false
  | _ => .error ()

/-- Annual branch of the scan (app.py lines 118-124): read `@Annual`, drop it
when absent/sentinel, return it when it parses as a float; an unparseable
string is a `ValueError` (continue), a non-string non-number a `TypeError`
(propagates). `ok none` means the loop moves to the next item. -/
def annualStep (item : Json) : Except Unit (Option ℚ) :=
  let annual_value := jget item "@Annual"
  if truthy annual_value ∧ ¬jEqStr annual_value "-999" then
    match pyFloat annual_value with
    | .val q => .ok (some q)
    | .valueError => .ok none
    | .typeError => .error ()
  else .ok none

/-- The twelve month field names with their 1-based numbers
(app.py lines 128-129 with `enumerate(months, 1)`). -/
def monthFields : List (Nat × String) :=
  [(1, "Month1"), (2, "Month2"), (3, "Month3"), (4, "Month4"), (5, "Month5"),
   (6, "Month6"), (7, "Month7"), (8, "Month8"), (9, "Month9"), (10, "Month10"),
   (11, "Month11"), (12, "Month12")]

/-- Month collection loop of app.py lines 132-139: keep each month field that
is present, non-sentinel and parses; a `ValueError` skips the month, a
`TypeError` propagates. -/
def collectMonths (item : Json) : List (Nat × String) → Except Unit (List (Nat × ℚ))
  | [] => .ok []
  | (i, month) :: rest =>
      let month_value := jget item ("@" ++ month)
      if truthy month_value ∧ ¬jEqStr month_value "-999" then
        match pyFloat month_value with
        | .val q => (collectMonths item rest).map (fun l => (i, q) :: l)
        | .valueError => collectMonths item rest
        | .typeError => .error ()
      else collectMonths item rest

/-- Monthly branch of the scan (app.py lines 126-142): return the sparse month
map when at least one month is valid, else let the loop continue. -/
def monthlyStep (item : Json) : Except Unit (Option (List (Nat × ℚ))) :=
  match collectMonths item monthFields with
  | .error () => .error ()
  | .ok l => .ok (if l.isEmpty then none else some l)

/-- The item scan of app.py lines 113-144: find a matching line item whose
value fields yield data; a matching item without valid values does not stop
the scan. Reaching the end yields `ok none` (the function's final
`return None`). -/
def scanItems (species ritem averaging_type : String) : List Json → Except Unit (Option ExtractResult)
  | [] => .ok none
  | item :: rest =>
      match itemMatches item species ritem with
      | .error () => .error ()
      | .ok false => scanItems species ritem averaging_type rest
      | .ok true =>
          if averaging_type = "annual" then
            match annualStep item with
            | .error () => .error ()
            | .ok (some q) => .ok (some (.annual q))
            | .ok none => scanItems species ritem averaging_type rest
          else if averaging_type = "monthly" then
            match monthlyStep item with
            | .error () => .error ()
            | .ok (some l) => .ok (some (.monthly l))
            | .ok none => scanItems species ritem averaging_type rest
          else scanItems species ritem averaging_type rest

/-- Navigation of app.py lines 86-97: `data["SiteReport"]["ReportItem"]` with
falsy-guards; every failure (falsy value, wrong shape raising in the `try`)
yields `none`. -/
def reportItemsOf (data : Json) : Option (List Json) :=
  if ¬truthy data then none
  else
    match data with
    | .obj _ =>
        let site_report := jgetD data "SiteReport" (Json.obj [])
        if ¬truthy site_report then none
        else
          match site_report with
          | .obj _ =>
              let report_items := jgetD site_report "ReportItem" (Json.arr [])
              if ¬truthy report_items then none
              else
                match report_items with
                | .arr items => some items
                | _ => none
          | _ => none
    | _ => none

/-- The `extract_pollutant_data` entry point (app.py lines 73-148). All paths
that the source sends to `return None` — falsy payload, missing structure, an
exception caught by `except Exception`, unknown pollutant, exhausted scan —
collapse to `none`. -/
def extract_pollutant_data (data : Json) (pollutant_type averaging_type : String) : Option ExtractResult :=
  match reportItemsOf data with
  | none => none
  | some items =>
      match pollutant_mapping pollutant_type with
      | none => none
      | some (species, ritem) =>
          match scanItems species ritem averaging_type items with
          | .error () => none
          | .ok r => r

/-- One extracted hourly observation (app.py lines 183-186). -/
structure HPoint where
  timestamp : Int
  value : ℚ
  deriving DecidableEq, Repr

/-- Per-item step of the hourly filter loop (app.py lines 176-188): keep items
of the requested species whose timestamp and value are truthy, value not the
sentinel, and both parse; parse failures (`ValueError`/`TypeError`) skip the
item via the inner handler. A non-dict item raises past the loop. -/
def hourlyItemStep (item : Json) (pollutant_type : String) : Except Unit (Option HPoint) :=
  match item with
  | .obj _ =>
      if jEqStr (jget item "@SpeciesCode") pollutant_type then
        let timestamp := jget item "@MeasurementDateGMT"
        let value := jget item "@Value"
        if truthy timestamp ∧ truthy value ∧ ¬jEqStr value "-999" then
          match parseDatetime timestamp, pyFloat value with
          | some t, .val q => .ok (some ⟨t, q⟩)
          | _, _ => .ok none
        else .ok none
      else .ok none
  | _ => .error ()

/-- The hourly filter loop over all data items (app.py lines 175-188). -/
def collectHPoints (pollutant_type : String) : List Json → Except Unit (List HPoint)
  | [] => .ok []
  | item :: rest =>
      match hourlyItemStep item pollutant_type with
      | .error () => .error ()
      | .ok none => collectHPoints pollutant_type rest
      | .ok (some p) => (collectHPoints pollutant_type rest).map (fun l => p :: l)

/-- Navigation of app.py lines 162-172: `data["AirQualityData"]["Data"]`. -/
def hourlyItemsOf (data : Json) : Option (List Json) :=
  if ¬truthy data then none
  else
    match data with
    | .obj _ =>
        let air_quality_data := jgetD data "AirQualityData" (Json.obj [])
        if ¬truthy air_quality_data then none
        else
          match air_quality_data with
          | .obj _ =>
              let data_items := jgetD air_quality_data "Data" (Json.arr [])
              if ¬truthy data_items then none
              else
                match data_items with
                | .arr items => some items
                | _ => none
          | _ => none
    | _ => none

/-- Valid points surviving the filter stage of `extract_hourly_data`; every
source path to `return []` (falsy payload, missing structure, caught
exception) yields `[]`. -/
def validHPointsOf (data : Json) (pollutant_type : String) : List HPoint :=
  match hourlyItemsOf data with
  | none => []
  | some items =>
      match collectHPoints pollutant_type items with
      | .error () => []
      | .ok l => l

/-- Stable ascending sort by timestamp (`df.sort_values("timestamp")`,
app.py line 195). -/
def sortByTs (pts : List HPoint) : List HPoint :=
  List.insertionSort (fun a b => a.timestamp ≤ b.timestamp) pts

/-- Calendar date of a timestamp (`df['timestamp'].dt.date`): floor division
of the minute count by minutes-per-day. -/
def dayOf (t : Int) : Int := t / 1440

/-- Collapse adjacent duplicates of a sorted list (the distinct keys that
`groupby` forms from a sorted column). -/
def dedupSorted : List Int → List Int
  | [] => []
  | [a] => [a]
  | a :: b :: rest => if a = b then dedupSorted (b :: rest) else a :: dedupSorted (b :: rest)

/-- Arithmetic mean of a list of rationals (`.mean()`); only applied to
nonempty groups. -/
def meanQ (l : List ℚ) : ℚ := l.sum / (l.length : ℚ)

/-- Daily aggregation of app.py lines 200-207: group the (sorted) points by
calendar date, one output row per date at that date's midnight holding the
mean of the date's values. -/
def dailyAggregate (sorted : List HPoint) : List HPoint :=
  (dedupSorted (sorted.map (fun p => dayOf p.timestamp))).map
    (fun d => ⟨d * 1440, meanQ ((sorted.filter (fun p => dayOf p.timestamp = d)).map (fun p => p.value))⟩)

/-- The `extract_hourly_data` entry point (app.py lines 150-212): filter to
valid points of the species, sort ascending, return them for `hourly` mode or
the per-date means for `daily` mode; every failure or empty path returns `[]`
and nothing ever propagates. -/
def extract_hourly_data (data : Json) (pollutant_type averaging_type : String) : List HPoint :=
  let pollutant_data := validHPointsOf data pollutant_type
  if pollutant_data.isEmpty then []
  else
    let sorted := sortByTs pollutant_data
    if averaging_type = "hourly" then sorted
    else if averaging_type = "daily" then dailyAggregate sorted
    else []

/-- Task classification tags of the collectors (app.py lines 393-398). -/
inductive Status where
  | success
  | no_data
  | failed
  deriving DecidableEq, Repr

/-- Outcome of one annual/monthly fetch task (app.py lines 382-398). -/
inductive AnnualOutcome where
  | success (site pollutant : String) (year : Int) (data : ExtractResult)
  | no_data (site pollutant : String) (year : Int)
  | failed (site pollutant : String) (year : Int)
  deriving DecidableEq, Repr

/-- Status tag of an annual outcome. -/
def statusOfA : AnnualOutcome → Status
  | .success _ _ _ _ => .success
  | .no_data _ _ _ => .no_data
  | .failed _ _ _ => .failed

/-- The missing-combination description string of app.py line 423. -/
def describeA : AnnualOutcome → String
  | .success site pollutant year _ => pollutant ++ " at " ++ site ++ " for " ++ toString year
  | .no_data site pollutant year => pollutant ++ " at " ++ site ++ " for " ++ toString year
  | .failed site pollutant year => pollutant ++ " at " ++ site ++ " for " ++ toString year

/-- The helper `fetch_annual_combination` (app.py lines 382-398): a falsy or
absent fetch result is `failed`; a successful fetch whose extraction finds
nothing is `no_data`; otherwise `success` carrying the extracted data.
`fetchData` stands for `fetch_annual_data`, `none` being its error path. -/
def fetch_annual_combination (fetchData : String → Int → Option Json)
    (site pollutant : String) (year : Int) (averaging_type : String) : AnnualOutcome :=
  match fetchData site year with
  | none => .failed site pollutant year
  | some annual_data =>
      if truthy annual_data then
        match extract_pollutant_data annual_data pollutant averaging_type with
        | some r => .success site pollutant year r
        | none => .no_data site pollutant year
      else .failed site pollutant year

/-- The annual collection loop of app.py lines 415-423: successes are appended
to `all_data`, `no_data` outcomes to `missing_combinations`, `failed`
outcomes to neither. -/
def collectAnnual (fetchData : String → Int → Option Json) (averaging_type : String) :
    List (String × String × Int) → List AnnualOutcome × List String
  | [] => ([], [])
  | (site, pollutant, year) :: rest =>
      let r := fetch_annual_combination fetchData site pollutant year averaging_type
      let acc := collectAnnual fetchData averaging_type rest
      match r with
      | .success _ _ _ _ => (r :: acc.1, acc.2)
      | .no_data _ _ _ => (acc.1, describeA r :: acc.2)
      | .failed _ _ _ => acc

/-- Outcome of one hourly/daily fetch task (app.py lines 433-448). -/
inductive HourlyOutcome where
  | success (site pollutant : String) (data : List HPoint)
  | no_data (site pollutant : String)
  | failed (site pollutant : String)
  deriving DecidableEq, Repr

/-- Status tag of an hourly outcome. -/
def statusOfH : HourlyOutcome → Status
  | .success _ _ _ => .success
  | .no_data _ _ => .no_data
  | .failed _ _ => .failed

/-- The missing-combination description string of app.py line 472. -/
def describeH : HourlyOutcome → String
  | .success site pollutant _ => pollutant ++ " at " ++ site
  | .no_data site pollutant => pollutant ++ " at " ++ site
  | .failed site pollutant => pollutant ++ " at " ++ site

/-- The helper `fetch_hourly_combination` (app.py lines 433-448); the fixed
date range is absorbed into the fetch oracle. An empty extraction list is
falsy, hence `no_data`. -/
def fetch_hourly_combination (fetchData : String → Option Json)
    (site pollutant : String) (averaging_type : String) : HourlyOutcome :=
  match fetchData site with
  | none => .failed site pollutant
  | some hourly_data =>
      if truthy hourly_data then
        let pollutant_data := extract_hourly_data hourly_data pollutant averaging_type
        if pollutant_data.isEmpty then .no_data site pollutant
        else .success site pollutant pollutant_data
      else .failed site pollutant

/-- The hourly collection loop of app.py lines 464-472, same aggregation shape
as the annual one. -/
def collectHourly (fetchData : String → Option Json) (averaging_type : String) :
    List (String × String) → List HourlyOutcome × List String
  | [] => ([], [])
  | (site, pollutant) :: rest =>
      let r := fetch_hourly_combination fetchData site pollutant averaging_type
      let acc := collectHourly fetchData averaging_type rest
      match r with
      | .success _ _ _ => (r :: acc.1, acc.2)
      | .no_data _ _ => (acc.1, describeH r :: acc.2)
      | .failed _ _ => acc

/-- The fixed site catalog of app.py lines 310-322. -/
def site_mapping : List (String × String) :=
  [("WA2", "Wandsworth Town Hall"),
   ("WA7", "Putney High Street"),
   ("WA8", "Putney High Street facade"),
   ("WA9", "Felsham Road, Putney"),
   ("WAA", "Thessaly Road, Battersea"),
   ("WAB", "Tooting High Street"),
   ("WAC", "Lavander Hill, Clapham Junction"),
   ("ME2", "Merton Road, South Wimbledon"),
   ("ME9", "Civic Centre, Morden"),
   ("RI1", "Castlenau Library, Barnes"),
   ("RI2", "Wetland Centre, Barnes")]

/-- Display name lookup, `site_mapping.get(site, site)` (app.py line 523). -/
def siteNameOf (site : String) : String :=
  match site_mapping.find? (fun kv => kv.1 = site) with
  | some kv => kv.2
  | none => site

/-- The series key `f"{pollutant} - {site} ({site_name})"` (app.py line 530). -/
def seriesKey (pollutant site : String) : String :=
  pollutant ++ " - " ++ site ++ " (" ++ siteNameOf site ++ ")"

/-- One row of the annual chart DataFrame (app.py lines 524-531). -/
structure AnnRow where
  year : Int
  site : String
  pollutant : String
  value : ℚ
  series : String
  deriving DecidableEq, Repr

/-- The annual `chart_data` assembly (app.py lines 520-531): one row per
success record holding an annual value. -/
def annualChartRows (all_data : List AnnualOutcome) : List AnnRow :=
  all_data.filterMap (fun o =>
    match o with
    | .success site pollutant year (.annual v) =>
        some ⟨year, site, pollutant, v, seriesKey pollutant site⟩
    | _ => none)

/-- First-occurrence distinct values (`df['Series'].unique()`), with a seen
accumulator to stay structurally recursive. -/
def uniqueAux : List String → List String → List String
  | [], _ => []
  | a :: rest, seen =>
      if seen.contains a then uniqueAux rest seen else a :: uniqueAux rest (a :: seen)

/-- Distinct values in first-occurrence order. -/
def uniqueInOrder (l : List String) : List String := uniqueAux l []

/-- Minimum of a list of ints (`.min()`), 0 on the empty list (never used
there: the callers guard on nonemptiness exactly as the source does). -/
def listMinD : List Int → Int
  | [] => 0
  | a :: rest => rest.foldl min a

/-- Maximum of a list of ints (`.max()`), 0 on the empty list. -/
def listMaxD : List Int → Int
  | [] => 0
  | a :: rest => rest.foldl max a

/-- Model of `range(lo, hi+1)` / `pd.date_range(lo, hi, freq)` on an integer
axis: `lo, lo+step, …` up to `hi` inclusive. -/
def dateRange (lo hi : Int) (step : Nat) : List Int :=
  if lo ≤ hi ∧ step ≠ 0 then
    (List.range ((hi - lo).toNat / step + 1)).map (fun k : Nat => lo + (k : Int) * (step : Int))
  else []

/-- Per-series annual gap filling (app.py lines 631-650): sort by year, walk
every integer year from the min to the max observed year, emit the first
matching row's value or `none`. -/
def renderAnnualSeries (series_data : List AnnRow) : List (Int × Option ℚ) :=
  if series_data.isEmpty then []
  else
    let sorted := List.insertionSort (fun a b => a.year ≤ b.year) series_data
    let min_year := listMinD (series_data.map (fun r => r.year))
    let max_year := listMaxD (series_data.map (fun r => r.year))
    (dateRange min_year max_year 1).map (fun year =>
      (year, ((sorted.filter (fun r => r.year = year)).head?).map (fun r => r.value)))

/-- The annual chart loop over distinct series (app.py lines 620-652). -/
def renderAnnual (all_data : List AnnualOutcome) : List (String × List (Int × Option ℚ)) :=
  let rows := annualChartRows all_data
  (uniqueInOrder (rows.map (fun r => r.series))).map (fun s =>
    (s, renderAnnualSeries (rows.filter (fun r => r.series = s))))

/-- One row of the monthly chart DataFrame restricted to what the per-series
normalization reads (app.py lines 544-554, 654-681): the calendar month as a
linear month index (`year*12 + (month-1)`, the `to_period('M')` key) and the
value. -/
structure MRow where
  month : Int
  value : ℚ
  deriving DecidableEq, Repr

/-- Per-series monthly gap filling (app.py lines 660-681): walk every calendar
month from the min to the max observed month (`pd.date_range(freq='MS')` over
month starts), emit the first row matching on month equality or `none`. -/
def normalizeMonthlySeries (series_data : List MRow) : List (Int × Option ℚ) :=
  if series_data.isEmpty then []
  else
    let sorted := List.insertionSort (fun a b => a.month ≤ b.month) series_data
    let min_month := listMinD (series_data.map (fun r => r.month))
    let max_month := listMaxD (series_data.map (fun r => r.month))
    (dateRange min_month max_month 1).map (fun m =>
      (m, ((sorted.filter (fun r => r.month = m)).head?).map (fun r => r.value)))

/-- Candidate points within tolerance of a boundary (app.py line 708):
`series_data[abs(series_data['Timestamp'] - time_point) <= tolerance]`, the
frame being sorted ascending by timestamp. -/
def tolCandidates (pts : List HPoint) (t tol : Int) : List HPoint :=
  (sortByTs pts).filter (fun p => |p.timestamp - t| ≤ tol)

/-- Value emitted at one boundary (app.py lines 708-714): the first candidate
in ascending timestamp order, else `none`. -/
def valueAt (pts : List HPoint) (t tol : Int) : Option ℚ :=
  ((tolCandidates pts t tol).head?).map (fun p => p.value)

/-- Boundary grid of app.py lines 692-701: `pd.date_range` from the min to the
max observed timestamp at the resolution's step. -/
def gridOf (pts : List HPoint) (step : Nat) : List Int :=
  if pts.isEmpty then []
  else dateRange (listMinD (pts.map (fun p => p.timestamp)))
    (listMaxD (pts.map (fun p => p.timestamp))) step

/-- Per-series hourly/daily gap filling (app.py lines 685-717): one output
point per grid boundary, holding the first candidate value within the
tolerance window or `none`. Hourly mode is step 60 / tolerance 30 minutes,
daily mode step 1440 / tolerance 720. -/
def fillSeries (pts : List HPoint) (step : Nat) (tol : Int) : List (Int × Option ℚ) :=
  (gridOf pts step).map (fun t => (t, valueAt pts t tol))

/-- The `@Annual` field of every report line item (the only fields the annual
branch ever reads a value from). -/
def annualValueFields (items : List Json) : List Json :=
  items.map (fun item => jget item "@Annual")

/-- The twelve `@MonthN` fields of one report line item. -/
def itemMonthVals (item : Json) : List Json :=
  monthFields.map (fun im => jget item ("@" ++ im.2))

/-- The twelve `@MonthN` fields of every report line item. -/
def monthlyValueFields (items : List Json) : List Json :=
  items.flatMap itemMonthVals

/-- The `@Value` field of every hourly data item. -/
def hourlyValueFields (items : List Json) : List Json :=
  items.map (fun item => jget item "@Value")

/-- A field value that survives the extractor checks for `v`: truthy (present
and nonempty), not the `"-999"` sentinel, and parsing as the float `v`. -/
def validNumeric (j : Json) (v : ℚ) : Prop :=
  truthy j = true ∧ jEqStr j "-999" = false ∧ pyFloat j = .val v

/-- Boolean test: the outcome is a `success` record. -/
def isSuccessA : AnnualOutcome → Bool
  | .success _ _ _ _ => true
  | _ => false

/-- Boolean test: the outcome is a `no_data` record. -/
def isNoDataA : AnnualOutcome → Bool
  | .no_data _ _ _ => true
  | _ => false

/-- Boolean test: the outcome is a `failed` record. -/
def isFailedA : AnnualOutcome → Bool
  | .failed _ _ _ => true
  | _ => false

/-- Boolean test: the hourly outcome is a `success` record. -/
def isSuccessH : HourlyOutcome → Bool
  | .success _ _ _ => true
  | _ => false

/-- Boolean test: the hourly outcome is a `no_data` record. -/
def isNoDataH : HourlyOutcome → Bool
  | .no_data _ _ => true
  | _ => false

/-- Boolean test: the hourly outcome is a `failed` record. -/
def isFailedH : HourlyOutcome → Bool
  | .failed _ _ => true
  | _ => false

instance : IsTotal HPoint (fun a b => a.timestamp ≤ b.timestamp) :=
  ⟨fun a b => le_total a.timestamp b.timestamp⟩

instance : IsTrans HPoint (fun a b => a.timestamp ≤ b.timestamp) :=
  ⟨fun _ _ _ hab hbc => le_trans hab hbc⟩

instance : IsTotal AnnRow (fun a b => a.year ≤ b.year) :=
  ⟨fun a b => le_total a.year b.year⟩

instance : IsTrans AnnRow (fun a b => a.year ≤ b.year) :=
  ⟨fun _ _ _ hab hbc => le_trans hab hbc⟩

instance : IsTotal MRow (fun a b => a.month ≤ b.month) :=
  ⟨fun a b => le_total a.month b.month⟩

instance : IsTrans MRow (fun a b => a.month ≤ b.month) :=
  ⟨fun _ _ _ hab hbc => le_trans hab hbc⟩

/-! Concrete payloads and inputs used by witnesses and counterexamples. -/

/-- A PM10 mean line item carrying the valid annual value `"14.2"`. -/
def itemMean142 : Json :=
  .obj [("@SpeciesCode", .str "PM10"), ("@ReportItem", .str "7"),
        ("@ReportItemName", .str "Mean: (AQS Objective < 40ug/m3)"), ("@Annual", .str "14.2")]

/-- A PM10 mean line item whose annual value is the `"-999"` sentinel. -/
def itemMeanSentinel : Json :=
  .obj [("@SpeciesCode", .str "PM10"), ("@ReportItem", .str "7"),
        ("@ReportItemName", .str "Mean: (AQS Objective < 40ug/m3)"), ("@Annual", .str "-999")]

/-- A PM10 mean line item whose annual value is a non-numeric string. -/
def itemMeanNA : Json :=
  .obj [("@SpeciesCode", .str "PM10"), ("@ReportItem", .str "7"),
        ("@ReportItemName", .str "Mean: (AQS Objective < 40ug/m3)"), ("@Annual", .str "n/a")]

/-- A PM10 mean line item carrying the valid integer annual value `"14"`. -/
def itemMean14 : Json :=
  .obj [("@SpeciesCode", .str "PM10"), ("@ReportItem", .str "7"),
        ("@ReportItemName", .str "Mean: (AQS Objective < 40ug/m3)"), ("@Annual", .str "14")]

/-- Annual payload wrapping one line item. -/
def annualPayload (item : Json) : Json :=
  .obj [("SiteReport", .obj [("ReportItem", .arr [item])])]

/-- Fetch oracle of the C2 scenario: 2023 answers with the valid mean,
2024 with the sentinel payload. -/
def fetchRI2 : String → Int → Option Json := fun _ year =>
  if year = 2023 then some (annualPayload itemMean142)
  else if year = 2024 then some (annualPayload itemMeanSentinel)
  else none

/-- The two tasks of the C2 scenario. -/
def tasksRI2 : List (String × String × Int) := [("RI2", "PM10", 2023), ("RI2", "PM10", 2024)]

/-- A fetch oracle whose every request fails. -/
def fetchDown : String → Int → Option Json := fun _ _ => none

/-- Observed points at minutes 0, 80, 160: minute 80 is 20 minutes past the
60-minute boundary and 40 minutes past the 120-minute boundary. -/
def ptsHourlyDemo : List HPoint := [⟨0, 1⟩, ⟨80, 2⟩, ⟨160, 3⟩]

/-- Observed points with one at minute 630, exactly 30 minutes past the hour,
between on-the-hour neighbours at 540 and 720. -/
def ptsHalfHour : List HPoint := [⟨540, 5⟩, ⟨630, 7⟩, ⟨720, 9⟩]

/-- Monthly rows with a one-month gap between month indices 24001 and 24003. -/
def rowsMonthlyDemo : List MRow := [⟨24003, 4⟩, ⟨24001, 3⟩]

/-- An hourly item of the given species/timestamp/value strings. -/
def hourlyItem (sc ts v : String) : Json :=
  .obj [("@SpeciesCode", .str sc), ("@MeasurementDateGMT", .str ts), ("@Value", .str v)]

/-- Hourly payload with two PM10 points on one day and one on the next. -/
def payloadHourlyDemo : Json :=
  .obj [("AirQualityData", .obj [("Data", .arr
    [hourlyItem "PM10" "60" "4", hourlyItem "PM10" "120" "6", hourlyItem "PM10" "1500" "9"])])]

/-! Helper lemmas about the list machinery. -/

/-- Folding `min` only lowers the accumulator. -/
theorem foldl_min_le_init (l : List Int) : ∀ a : Int, l.foldl min a ≤ a := by
  induction l with
  | nil => intro a; exact le_refl a
  | cons b t ih =>
      intro a
      exact le_trans (ih (min a b)) (min_le_left a b)

/-- Folding `min` bounds every member. -/
theorem foldl_min_le_mem (l : List Int) : ∀ (a x : Int), x ∈ l → l.foldl min a ≤ x := by
  induction l with
  | nil => intro a x hx; cases hx
  | cons b t ih =>
      intro a x hx
      rcases List.mem_cons.mp hx with h | h
      · subst h
        exact le_trans (foldl_min_le_init t (min a x)) (min_le_right a x)
      · exact ih (min a b) x h

/-- Folding `max` only raises the accumulator. -/
theorem init_le_foldl_max (l : List Int) : ∀ a : Int, a ≤ l.foldl max a := by
  induction l with
  | nil => intro a; exact le_refl a
  | cons b t ih =>
      intro a
      exact le_trans (le_max_left a b) (ih (max a b))

/-- Folding `max` bounds every member. -/
theorem mem_le_foldl_max (l : List Int) : ∀ (a x : Int), x ∈ l → x ≤ l.foldl max a := by
  induction l with
  | nil => intro a x hx; cases hx
  | cons b t ih =>
      intro a x hx
      rcases List.mem_cons.mp hx with h | h
      · subst h
        exact le_trans (le_max_right a x) (init_le_foldl_max t (max a x))
      · exact ih (max a b) x h

/-- `listMinD` is a lower bound of the list. -/
theorem listMinD_le (l : List Int) (x : Int) (hx : x ∈ l) : listMinD l ≤ x := by
  match l, hx with
  | a :: rest, hx =>
      rcases List.mem_cons.mp hx with h | h
      · subst h; exact foldl_min_le_init rest x
      · exact foldl_min_le_mem rest a x h

/-- `listMaxD` is an upper bound of the list. -/
theorem le_listMaxD (l : List Int) (x : Int) (hx : x ∈ l) : x ≤ listMaxD l := by
  match l, hx with
  | a :: rest, hx =>
      rcases List.mem_cons.mp hx with h | h
      · subst h; exact init_le_foldl_max rest x
      · exact mem_le_foldl_max rest a x h

/-- On a nonempty list the min does not exceed the max. -/
theorem listMinD_le_listMaxD (l : List Int) (h : l ≠ []) : listMinD l ≤ listMaxD l := by
  match l, h with
  | a :: rest, _ =>
      exact le_trans (listMinD_le (a :: rest) a (List.mem_cons_self a rest))
        (le_listMaxD (a :: rest) a (List.mem_cons_self a rest))

/-- Membership in a step-1 `dateRange` is exactly the interval. -/
theorem mem_dateRange_one (lo hi m : Int) (h : lo ≤ hi) :
    m ∈ dateRange lo hi 1 ↔ lo ≤ m ∧ m ≤ hi := by
  have hc : lo ≤ hi ∧ (1 : Nat) ≠ 0 := ⟨h, by decide⟩
  simp only [dateRange, if_pos hc]
  constructor
  · intro hm
    rcases List.mem_map.mp hm with ⟨k, hk, hkm⟩
    rw [List.mem_range] at hk
    omega
  · intro hb
    refine List.mem_map.mpr ⟨(m - lo).toNat, List.mem_range.mpr (by omega), by omega⟩

/-- `dedupSorted` preserves membership. -/
theorem mem_dedupSorted : ∀ (l : List Int) (x : Int), x ∈ dedupSorted l ↔ x ∈ l
  | [], x => by simp [dedupSorted]
  | [a], x => by simp [dedupSorted]
  | a :: b :: rest, x => by
      by_cases h : a = b
      · subst h
        have hrec := mem_dedupSorted (a :: rest) x
        show x ∈ (if a = a then dedupSorted (a :: rest) else a :: dedupSorted (a :: rest)) ↔ _
        rw [if_pos rfl, hrec]
        simp
      · have hrec := mem_dedupSorted (b :: rest) x
        show x ∈ (if a = b then dedupSorted (b :: rest) else a :: dedupSorted (b :: rest)) ↔ _
        rw [if_neg h, List.mem_cons, hrec]
        simp [List.mem_cons]

/-- `dedupSorted` of a weakly sorted list is strictly sorted. -/
theorem pairwise_lt_dedupSorted :
    ∀ l : List Int, l.Pairwise (· ≤ ·) → (dedupSorted l).Pairwise (· < ·)
  | [], _ => by simp [dedupSorted]
  | [a], _ => by simp [dedupSorted]
  | a :: b :: rest, h => by
      rcases List.pairwise_cons.mp h with ⟨ha, htail⟩
      by_cases hab : a = b
      · subst hab
        simpa [dedupSorted] using pairwise_lt_dedupSorted (a :: rest) htail
      · have hab' : a < b := lt_of_le_of_ne (ha b (List.mem_cons_self b rest)) hab
        simp only [dedupSorted, if_neg hab]
        refine List.pairwise_cons.mpr ⟨?_, pairwise_lt_dedupSorted (b :: rest) htail⟩
        intro y hy
        have hy' : y ∈ b :: rest := (mem_dedupSorted (b :: rest) y).mp hy
        rcases List.mem_cons.mp hy' with h1 | h1
        · subst h1; exact hab'
        · have hby := (List.pairwise_cons.mp htail).1 y h1
          exact lt_of_lt_of_le hab' hby

/-- The sort stage keeps exactly the filtered points (as a set). -/
theorem mem_sortByTs (pts : List HPoint) (p : HPoint) : p ∈ sortByTs pts ↔ p ∈ pts :=
  (List.perm_insertionSort (fun a b => a.timestamp ≤ b.timestamp) pts).mem_iff

/-- The sort stage is ascending in timestamps. -/
theorem sortByTs_sorted (pts : List HPoint) :
    (sortByTs pts).Pairwise (fun a b => a.timestamp ≤ b.timestamp) :=
  List.sorted_insertionSort (fun (a b : HPoint) => a.timestamp ≤ b.timestamp) pts

/-- The collection loop keeps the successes (in order) as `all_data` and the
descriptions of the `no_data` outcomes (in order) as `missing_combinations`;
`failed` outcomes reach neither list. -/
theorem collectAnnual_split (fetchData : String → Int → Option Json) (avg : String) :
    ∀ tasks : List (String × String × Int),
      (collectAnnual fetchData avg tasks).1 =
        (tasks.map (fun t => fetch_annual_combination fetchData t.1 t.2.1 t.2.2 avg)).filter isSuccessA
      ∧ (collectAnnual fetchData avg tasks).2 =
        ((tasks.map (fun t => fetch_annual_combination fetchData t.1 t.2.1 t.2.2 avg)).filter isNoDataA).map describeA
  | [] => by simp [collectAnnual]
  | (site, pollutant, year) :: rest => by
      have ih := collectAnnual_split fetchData avg rest
      cases hr : fetch_annual_combination fetchData site pollutant year avg <;>
        simp [collectAnnual, hr, List.filter_cons, isSuccessA, isNoDataA, ih.1, ih.2]

/-- Hourly version of `collectAnnual_split`. -/
theorem collectHourly_split (fetchData : String → Option Json) (avg : String) :
    ∀ tasks : List (String × String),
      (collectHourly fetchData avg tasks).1 =
        (tasks.map (fun t => fetch_hourly_combination fetchData t.1 t.2 avg)).filter isSuccessH
      ∧ (collectHourly fetchData avg tasks).2 =
        ((tasks.map (fun t => fetch_hourly_combination fetchData t.1 t.2 avg)).filter isNoDataH).map describeH
  | [] => by simp [collectHourly]
  | (site, pollutant) :: rest => by
      have ih := collectHourly_split fetchData avg rest
      cases hr : fetch_hourly_combination fetchData site pollutant avg <;>
        simp [collectHourly, hr, List.filter_cons, isSuccessH, isNoDataH, ih.1, ih.2]

/-- Every annual outcome carries exactly one of the three status tags. -/
theorem countA_partition : ∀ outs : List AnnualOutcome,
    outs.countP isSuccessA + outs.countP isNoDataA + outs.countP isFailedA = outs.length
  | [] => by simp
  | o :: rest => by
      have ih := countA_partition rest
      cases o <;> simp [List.countP_cons, isSuccessA, isNoDataA, isFailedA] <;> omega

/-- Every hourly outcome carries exactly one of the three status tags. -/
theorem countH_partition : ∀ outs : List HourlyOutcome,
    outs.countP isSuccessH + outs.countP isNoDataH + outs.countP isFailedH = outs.length
  | [] => by simp
  | o :: rest => by
      have ih := countH_partition rest
      cases o <;> simp [List.countP_cons, isSuccessH, isNoDataH, isFailedH] <;> omega

/-- C1 counterexample: a run with a single task whose fetch fails classifies
it as `failed`, yet the missing-combinations list comes back empty — the
failed combination is not surfaced to the caller, contradicting the claim
that both `no_data` and `failed` combinations appear in that list. -/
theorem C1_failed_not_surfaced :
    collectAnnual fetchDown "annual" [("RI2", "PM10", 2023)] = ([], [])
    ∧ isFailedA (fetch_annual_combination fetchDown "RI2" "PM10" 2023 "annual") = true := by
  exact ⟨rfl, rfl⟩

/-- C1 (amended): after a collection run completes, every submitted task is
classified into exactly one of success, no_data, failed, and the three counts
sum to the total number of tasks; the `no_data` combinations are surfaced to
the caller in the missing-combinations list, while `failed` combinations are
counted but not appended to that list (the list holds exactly the `no_data`
descriptions). Both the annual/monthly and the hourly/daily collectors. -/
theorem C1_collector_partition :
    (∀ (fetchData : String → Int → Option Json) (avg : String)
       (tasks : List (String × String × Int)),
      let outs := tasks.map (fun t => fetch_annual_combination fetchData t.1 t.2.1 t.2.2 avg)
      (∀ o ∈ outs, (isSuccessA o).toNat + (isNoDataA o).toNat + (isFailedA o).toNat = 1)
      ∧ outs.countP isSuccessA + outs.countP isNoDataA + outs.countP isFailedA = tasks.length
      ∧ (collectAnnual fetchData avg tasks).1 = outs.filter isSuccessA
      ∧ (collectAnnual fetchData avg tasks).2 = (outs.filter isNoDataA).map describeA)
    ∧ (∀ (fetchData : String → Option Json) (avg : String)
       (tasks : List (String × String)),
      let outs := tasks.map (fun t => fetch_hourly_combination fetchData t.1 t.2 avg)
      (∀ o ∈ outs, (isSuccessH o).toNat + (isNoDataH o).toNat + (isFailedH o).toNat = 1)
      ∧ outs.countP isSuccessH + outs.countP isNoDataH + outs.countP isFailedH = tasks.length
      ∧ (collectHourly fetchData avg tasks).1 = outs.filter isSuccessH
      ∧ (collectHourly fetchData avg tasks).2 = (outs.filter isNoDataH).map describeH) := by
  constructor
  · intro fetchData avg tasks
    refine ⟨?_, ?_, (collectAnnual_split fetchData avg tasks).1,
      (collectAnnual_split fetchData avg tasks).2⟩
    · intro o _
      cases o <;> simp [isSuccessA, isNoDataA, isFailedA]
    · rw [countA_partition, List.length_map]
  · intro fetchData avg tasks
    refine ⟨?_, ?_, (collectHourly_split fetchData avg tasks).1,
      (collectHourly_split fetchData avg tasks).2⟩
    · intro o _
      cases o <;> simp [isSuccessH, isNoDataH, isFailedH]
    · rw [countH_partition, List.length_map]

/-- Witness for C1: the partition equalities instantiated on the concrete
two-task RI2 run. -/
theorem C1_collector_partition_witness :
    (let outs := tasksRI2.map (fun t => fetch_annual_combination fetchRI2 t.1 t.2.1 t.2.2 "annual")
     (∀ o ∈ outs, (isSuccessA o).toNat + (isNoDataA o).toNat + (isFailedA o).toNat = 1)
     ∧ outs.countP isSuccessA + outs.countP isNoDataA + outs.countP isFailedA = tasksRI2.length
     ∧ (collectAnnual fetchRI2 "annual" tasksRI2).1 = outs.filter isSuccessA
     ∧ (collectAnnual fetchRI2 "annual" tasksRI2).2 = (outs.filter isNoDataA).map describeA) :=
  C1_collector_partition.1 fetchRI2 "annual" tasksRI2

/-- C2 counterexample: in the exact scenario of the claim (site RI2, PM10,
2023 answering a valid mean of 14.2, 2024 answering the sentinel), the run
does record the 2023 success and the 2024 `no_data` combination, but the
rendered series spans only the observed years and stops at 2023: it is
`[(2023, 14.2)]`, not `[(2023, 14.2), (2024, None)]`. -/
theorem C2_series_stops_at_observed_max :
    (collectAnnual fetchRI2 "annual" tasksRI2).1 =
      [.success "RI2" "PM10" 2023 (.annual (71/5))]
    ∧ (collectAnnual fetchRI2 "annual" tasksRI2).2 = ["PM10 at RI2 for 2024"]
    ∧ renderAnnual (collectAnnual fetchRI2 "annual" tasksRI2).1 ≠
        [("PM10 - RI2 (Wetland Centre, Barnes)", [(2023, some (71/5)), (2024, none)])] := by
  have hv : ((14 : ℚ) + (2 : ℚ) / (10 : ℚ) ^ 1) = 71/5 := by norm_num
  have h1 : (collectAnnual fetchRI2 "annual" tasksRI2).1 =
      [.success "RI2" "PM10" 2023 (.annual ((14 : ℚ) + (2 : ℚ) / (10 : ℚ) ^ 1))] := rfl
  have h3 : renderAnnual (collectAnnual fetchRI2 "annual" tasksRI2).1 =
      [("PM10 - RI2 (Wetland Centre, Barnes)",
        [(2023, some ((14 : ℚ) + (2 : ℚ) / (10 : ℚ) ^ 1))])] := rfl
  refine ⟨by rw [h1, hv], rfl, ?_⟩
  rw [h3]
  intro h
  simp at h

/-- C2 (amended): requesting Annual PM10 for site RI2 over 2023-2024 with a
valid 14.2 mean for 2023 and the sentinel for 2024 yields one success record
for 2023 and one `no_data` entry for 2024, and the rendered Series is exactly
`[(2023, 14.2)]` — the chart domain spans only observed years, so the missing
2024 is not padded with a trailing `None`. -/
theorem C2_run_amended :
    (collectAnnual fetchRI2 "annual" tasksRI2).1 =
      [.success "RI2" "PM10" 2023 (.annual (71/5))]
    ∧ (collectAnnual fetchRI2 "annual" tasksRI2).2 = ["PM10 at RI2 for 2024"]
    ∧ renderAnnual (collectAnnual fetchRI2 "annual" tasksRI2).1 =
        [("PM10 - RI2 (Wetland Centre, Barnes)", [(2023, some (71/5))])] := by
  have hv : ((14 : ℚ) + (2 : ℚ) / (10 : ℚ) ^ 1) = 71/5 := by norm_num
  have h1 : (collectAnnual fetchRI2 "annual" tasksRI2).1 =
      [.success "RI2" "PM10" 2023 (.annual ((14 : ℚ) + (2 : ℚ) / (10 : ℚ) ^ 1))] := rfl
  have h3 : renderAnnual (collectAnnual fetchRI2 "annual" tasksRI2).1 =
      [("PM10 - RI2 (Wetland Centre, Barnes)",
        [(2023, some ((14 : ℚ) + (2 : ℚ) / (10 : ℚ) ^ 1))])] := rfl
  exact ⟨by rw [h1, hv], rfl, by rw [h3, hv]⟩

/-- C5: for site RI2, pollutant PM10, with observed annual values 18.3 for
2000 and 16.1 for 2002 (2001 missing), the normalized output series is
exactly `[(2000, 18.3), (2001, None), (2002, 16.1)]`: one point per integer
year from the minimum to the maximum observed year, with `None` at the
missing year. -/
theorem C5_annual_gap_fill :
    renderAnnual [.success "RI2" "PM10" 2000 (.annual (183/10)),
                  .success "RI2" "PM10" 2002 (.annual (161/10))]
      = [("PM10 - RI2 (Wetland Centre, Barnes)",
          [(2000, some (183/10)), (2001, none), (2002, some (161/10))])] := rfl

/-- C10: the tolerance comparison of the hourly gap filler is inclusive
(`<= 30` minutes), so a point timestamped exactly 30 minutes past a boundary
is a candidate of both that boundary and the next one 60 minutes later; on a
concrete series whose grid contains both on-the-hour neighbours of such a
point, its value is emitted at both boundaries and appears twice. -/
theorem C10_inclusive_tolerance :
    (∀ (pts : List HPoint) (p : HPoint) (b : Int), p ∈ pts → p.timestamp = b + 30 →
      p ∈ tolCandidates pts b 30 ∧ p ∈ tolCandidates pts (b + 60) 30)
    ∧ fillSeries ptsHalfHour 60 30 =
        [(540, some 5), (600, some 7), (660, some 7), (720, some 9)] := by
  constructor
  · intro pts p b hp hts
    constructor
    · refine List.mem_filter.mpr ⟨(mem_sortByTs pts p).mpr hp, ?_⟩
      rw [decide_eq_true_eq, hts, abs_le]
      omega
    · refine List.mem_filter.mpr ⟨(mem_sortByTs pts p).mpr hp, ?_⟩
      rw [decide_eq_true_eq, hts, abs_le]
      omega
  · rfl

/-- Witness for C10: the point at minute 630 (10:30) among `ptsHalfHour` is a
candidate of both the 600 (10:00) and the 660 (11:00) boundaries. -/
theorem C10_inclusive_tolerance_witness :
    (⟨630, 7⟩ : HPoint) ∈ tolCandidates ptsHalfHour 600 30
    ∧ (⟨630, 7⟩ : HPoint) ∈ tolCandidates ptsHalfHour (600 + 60) 30 :=
  C10_inclusive_tolerance.1 ptsHalfHour ⟨630, 7⟩ 600
    (List.mem_cons_of_mem _ (List.mem_cons_self _ _)) rfl

/-- C4: for every hour boundary of the hourly grid, the boundary's point is in
the output; a point 20 minutes away is a candidate and the boundary does not
emit `None`; a point 40 minutes away is not a candidate, and with no
candidate at all the boundary emits `None`; the emitted value is the head of
the ascending-sorted candidate list, whose head has the least timestamp. -/
theorem C4_hourly_tolerance (pts : List HPoint) (t : Int) (ht : t ∈ gridOf pts 60) :
    ((t, valueAt pts t 30) ∈ fillSeries pts 60 30)
    ∧ valueAt pts t 30 = ((tolCandidates pts t 30).head?).map (fun p => p.value)
    ∧ (∀ p ∈ pts, |p.timestamp - t| = 20 → p ∈ tolCandidates pts t 30 ∧ valueAt pts t 30 ≠ none)
    ∧ (∀ p ∈ pts, |p.timestamp - t| = 40 → p ∉ tolCandidates pts t 30)
    ∧ (tolCandidates pts t 30 = [] → valueAt pts t 30 = none)
    ∧ (∀ p, (tolCandidates pts t 30).head? = some p →
        ∀ q ∈ tolCandidates pts t 30, p.timestamp ≤ q.timestamp) := by
  refine ⟨List.mem_map.mpr ⟨t, ht, rfl⟩, rfl, ?_, ?_, ?_, ?_⟩
  · intro p hp h20
    have hmem : p ∈ tolCandidates pts t 30 := by
      refine List.mem_filter.mpr ⟨(mem_sortByTs pts p).mpr hp, ?_⟩
      rw [decide_eq_true_eq, h20]
      omega
    refine ⟨hmem, ?_⟩
    cases hc : tolCandidates pts t 30 with
    | nil => rw [hc] at hmem; cases hmem
    | cons a l => simp [valueAt, hc]
  · intro p _ h40 hmem
    have hcond := (List.mem_filter.mp hmem).2
    rw [decide_eq_true_eq, h40] at hcond
    omega
  · intro h
    simp [valueAt, h]
  · intro p hp q hq
    have hsorted : (tolCandidates pts t 30).Pairwise (fun a b => a.timestamp ≤ b.timestamp) :=
      List.Pairwise.filter _ (sortByTs_sorted pts)
    cases hc : tolCandidates pts t 30 with
    | nil => rw [hc] at hq; cases hq
    | cons a l =>
        rw [hc] at hp hq hsorted
        simp only [List.head?_cons, Option.some.injEq] at hp
        subst hp
        rcases List.mem_cons.mp hq with h | h
        · subst h; exact le_refl _
        · exact (List.pairwise_cons.mp hsorted).1 q h

/-- Witness for C4: the conjunction instantiated at the demo points
(minutes 0, 80, 160) and the grid boundary at minute 60, 20 minutes from the
observed point at minute 80. -/
theorem C4_hourly_tolerance_witness :
    ((60, valueAt ptsHourlyDemo 60 30) ∈ fillSeries ptsHourlyDemo 60 30)
    ∧ valueAt ptsHourlyDemo 60 30 = ((tolCandidates ptsHourlyDemo 60 30).head?).map (fun p => p.value)
    ∧ (∀ p ∈ ptsHourlyDemo, |p.timestamp - 60| = 20 →
        p ∈ tolCandidates ptsHourlyDemo 60 30 ∧ valueAt ptsHourlyDemo 60 30 ≠ none)
    ∧ (∀ p ∈ ptsHourlyDemo, |p.timestamp - 60| = 40 → p ∉ tolCandidates ptsHourlyDemo 60 30)
    ∧ (tolCandidates ptsHourlyDemo 60 30 = [] → valueAt ptsHourlyDemo 60 30 = none)
    ∧ (∀ p, (tolCandidates ptsHourlyDemo 60 30).head? = some p →
        ∀ q ∈ tolCandidates ptsHourlyDemo 60 30, p.timestamp ≤ q.timestamp) :=
  C4_hourly_tolerance ptsHourlyDemo 60 (by decide)

/-- Mapping `fst` over a pairing recovers the index list. -/
theorem map_fst_pairing {α β : Type} (g : α → β) : ∀ l : List α,
    (l.map (fun m => (m, g m))).map Prod.fst = l
  | [] => rfl
  | a :: rest => by
      simp [map_fst_pairing g rest]

/-- C6: for every nonempty monthly series, whatever the input order, the
emitted positions are exactly every calendar month from the minimum to the
maximum observed month in steps of one month, and a position carries `None`
precisely when no input row observed that month. -/
theorem C6_monthly_contiguous (rows : List MRow) (hne : rows ≠ []) :
    ((normalizeMonthlySeries rows).map Prod.fst =
      dateRange (listMinD (rows.map (fun r => r.month))) (listMaxD (rows.map (fun r => r.month))) 1)
    ∧ (∀ m : Int, m ∈ (normalizeMonthlySeries rows).map Prod.fst ↔
        listMinD (rows.map (fun r => r.month)) ≤ m ∧ m ≤ listMaxD (rows.map (fun r => r.month)))
    ∧ (∀ m v, (m, v) ∈ normalizeMonthlySeries rows → (v = none ↔ ∀ r ∈ rows, r.month ≠ m)) := by
  have hmape : rows.map (fun r => r.month) ≠ [] := by
    intro h
    exact hne (List.map_eq_nil_iff.mp h)
  have hlohi := listMinD_le_listMaxD (rows.map (fun r => r.month)) hmape
  have hrne : rows.isEmpty = false := by
    cases rows with
    | nil => exact absurd rfl hne
    | cons a l => rfl
  have hdef : normalizeMonthlySeries rows =
      (dateRange (listMinD (rows.map (fun r => r.month)))
        (listMaxD (rows.map (fun r => r.month))) 1).map
        (fun m => (m, (((List.insertionSort (fun a b => a.month ≤ b.month) rows).filter
            (fun r => r.month = m)).head?).map (fun r => r.value))) := by
    simp [normalizeMonthlySeries, hrne]
  have hfst : (normalizeMonthlySeries rows).map Prod.fst =
      dateRange (listMinD (rows.map (fun r => r.month)))
        (listMaxD (rows.map (fun r => r.month))) 1 := by
    rw [hdef]
    exact map_fst_pairing _ _
  refine ⟨hfst, ?_, ?_⟩
  · intro m
    rw [hfst, mem_dateRange_one _ _ _ hlohi]
  · intro m v hmv
    rw [hdef] at hmv
    rcases List.mem_map.mp hmv with ⟨m', hm', heq⟩
    cases heq
    constructor
    · intro hnone r hr
      rw [Option.map_eq_none'] at hnone
      rw [List.head?_eq_none_iff] at hnone
      have := List.filter_eq_nil_iff.mp hnone r
        ((List.perm_insertionSort (fun a b => a.month ≤ b.month) rows).mem_iff.mpr hr)
      simpa using this
    · intro hno
      rw [Option.map_eq_none', List.head?_eq_none_iff]
      refine List.filter_eq_nil_iff.mpr ?_
      intro r hr
      have hrr : r ∈ rows :=
        (List.perm_insertionSort (fun a b => a.month ≤ b.month) rows).mem_iff.mp hr
      simpa using hno r hrr

/-- Witness for C6: the demo rows arrive out of order with a gap at month
index 24002; the normalized positions run contiguously from 24001 to 24003. -/
theorem C6_monthly_contiguous_witness :
    ((normalizeMonthlySeries rowsMonthlyDemo).map Prod.fst =
      dateRange (listMinD (rowsMonthlyDemo.map (fun r => r.month)))
        (listMaxD (rowsMonthlyDemo.map (fun r => r.month))) 1)
    ∧ (∀ m : Int, m ∈ (normalizeMonthlySeries rowsMonthlyDemo).map Prod.fst ↔
        listMinD (rowsMonthlyDemo.map (fun r => r.month)) ≤ m ∧
          m ≤ listMaxD (rowsMonthlyDemo.map (fun r => r.month)))
    ∧ (∀ m v, (m, v) ∈ normalizeMonthlySeries rowsMonthlyDemo →
        (v = none ↔ ∀ r ∈ rowsMonthlyDemo, r.month ≠ m)) :=
  C6_monthly_contiguous rowsMonthlyDemo (List.cons_ne_nil _ _)

/-- Daily aggregation timestamps are strictly increasing when the input is
sorted by timestamp. -/
theorem dailyAggregate_ts_strict (sorted : List HPoint)
    (h : sorted.Pairwise (fun a b => a.timestamp ≤ b.timestamp)) :
    ((dailyAggregate sorted).map (fun p => p.timestamp)).Pairwise (· < ·) := by
  have hds : (sorted.map (fun p => dayOf p.timestamp)).Pairwise (· ≤ ·) :=
    h.map _ (fun a b hab => by unfold dayOf; omega)
  have hdd := pairwise_lt_dedupSorted _ hds
  unfold dailyAggregate
  rw [List.map_map]
  refine hdd.map _ (fun a b hab => ?_)
  show a * 1440 < b * 1440
  omega

/-- C8: hourly extraction is a total function of the payload: its output is
an ordered sequence (nondecreasing timestamps, in daily mode strictly
increasing dates), an absent/falsy payload yields `[]`, a missing or
malformed structure yields `[]` (the `hourlyItemsOf` navigation or the
`collectHPoints` loop signalling the caught exception), and a payload with
no surviving point of the species yields `[]` — never a propagated failure. -/
theorem C8_hourly_total (data : Json) (pt avg : String) :
    (((extract_hourly_data data pt avg).map (fun p => p.timestamp)).Pairwise (· ≤ ·))
    ∧ (truthy data = false → extract_hourly_data data pt avg = [])
    ∧ (hourlyItemsOf data = none → extract_hourly_data data pt avg = [])
    ∧ (∀ items : List Json, hourlyItemsOf data = some items →
        collectHPoints pt items = .error () → extract_hourly_data data pt avg = [])
    ∧ (validHPointsOf data pt = [] → extract_hourly_data data pt avg = []) := by
  have hempty : ∀ hv : validHPointsOf data pt = [], extract_hourly_data data pt avg = [] := by
    intro hv
    simp [extract_hourly_data, hv]
  refine ⟨?_, ?_, ?_, ?_, hempty⟩
  · unfold extract_hourly_data
    cases hv : validHPointsOf data pt with
    | nil => simp
    | cons a l =>
        by_cases h1 : avg = "hourly"
        · simp only [h1, List.isEmpty_cons, Bool.false_eq_true, if_false, if_true]
          exact (sortByTs_sorted _).map _ (fun a b hab => hab)
        · by_cases h2 : avg = "daily"
          · simp only [h1, h2, List.isEmpty_cons, Bool.false_eq_true, if_false, if_true]
            exact ((dailyAggregate_ts_strict _ (sortByTs_sorted _)).imp (fun hab => le_of_lt hab))
          · simp [h1, h2]
  · intro h
    refine hempty ?_
    unfold validHPointsOf hourlyItemsOf
    rw [h]
    simp
  · intro h
    refine hempty ?_
    unfold validHPointsOf
    rw [h]
  · intro items hitems herr
    refine hempty ?_
    unfold validHPointsOf
    rw [hitems]
    simp [herr]

/-- Witness for C8: instantiated at the absent payload (`None`), where the
extraction returns the empty, trivially ordered sequence. -/
theorem C8_hourly_total_witness :
    ((((extract_hourly_data Json.null "PM10" "hourly").map (fun p => p.timestamp)).Pairwise (· ≤ ·))
    ∧ (truthy Json.null = false → extract_hourly_data Json.null "PM10" "hourly" = [])
    ∧ (hourlyItemsOf Json.null = none → extract_hourly_data Json.null "PM10" "hourly" = [])
    ∧ (∀ items : List Json, hourlyItemsOf Json.null = some items →
        collectHPoints "PM10" items = .error () → extract_hourly_data Json.null "PM10" "hourly" = [])
    ∧ (validHPointsOf Json.null "PM10" = [] → extract_hourly_data Json.null "PM10" "hourly" = []))
    ∧ extract_hourly_data Json.null "PM10" "hourly" = [] :=
  ⟨C8_hourly_total Json.null "PM10" "hourly",
   (C8_hourly_total Json.null "PM10" "hourly").2.1 rfl⟩

/-- Mean is invariant under permutation of the sample. -/
theorem meanQ_perm (l1 l2 : List ℚ) (h : l1.Perm l2) : meanQ l1 = meanQ l2 := by
  unfold meanQ
  rw [h.sum_eq, h.length_eq]

/-- Membership characterization of `dailyAggregate`. -/
theorem mem_dailyAggregate (sorted : List HPoint) (p : HPoint) :
    p ∈ dailyAggregate sorted ↔
      ∃ d, d ∈ dedupSorted (sorted.map (fun q => dayOf q.timestamp)) ∧
        p = ⟨d * 1440, meanQ ((sorted.filter (fun q => dayOf q.timestamp = d)).map (fun q => q.value))⟩ := by
  unfold dailyAggregate
  rw [List.mem_map]
  constructor
  · rintro ⟨d, hd, heq⟩
    exact ⟨d, hd, heq.symm⟩
  · rintro ⟨d, hd, heq⟩
    exact ⟨d, hd, heq.symm⟩

/-- C7: in daily mode, hourly extraction emits exactly one row per calendar
date holding at least one valid point; the row sits at that date's midnight
and holds the arithmetic mean of the date's valid values; a date with no
valid point produces no row; rows are strictly ordered (no duplicate date). -/
theorem C7_daily_mean (data : Json) (pt : String) :
    (∀ p ∈ extract_hourly_data data pt "daily", ∃ d : Int, p.timestamp = d * 1440 ∧
        ((validHPointsOf data pt).filter (fun q => dayOf q.timestamp = d)) ≠ [] ∧
        p.value = meanQ (((validHPointsOf data pt).filter
          (fun q => dayOf q.timestamp = d)).map (fun q => q.value)))
    ∧ (∀ d : Int, ((validHPointsOf data pt).filter (fun q => dayOf q.timestamp = d)) = [] →
        ∀ p ∈ extract_hourly_data data pt "daily", p.timestamp ≠ d * 1440)
    ∧ (((extract_hourly_data data pt "daily").map (fun p => p.timestamp)).Pairwise (· < ·))
    ∧ (∀ d : Int, (∃ q ∈ validHPointsOf data pt, dayOf q.timestamp = d) →
        ∃ p ∈ extract_hourly_data data pt "daily", p.timestamp = d * 1440) := by
  cases hv : validHPointsOf data pt with
  | nil =>
      have hout : extract_hourly_data data pt "daily" = [] := by
        simp [extract_hourly_data, hv]
      exact ⟨by simp [hout], by simp [hout], by simp [hout], by simp⟩
  | cons a l =>
      have hout : extract_hourly_data data pt "daily" = dailyAggregate (sortByTs (a :: l)) := by
        simp [extract_hourly_data, hv]
      have hperm := List.perm_insertionSort (fun x y : HPoint => x.timestamp ≤ y.timestamp) (a :: l)
      have hfperm : ∀ d : Int,
          ((sortByTs (a :: l)).filter (fun q => dayOf q.timestamp = d)).Perm
            ((a :: l).filter (fun q => dayOf q.timestamp = d)) :=
        fun d => hperm.filter _
      have hmean : ∀ d : Int,
          meanQ (((sortByTs (a :: l)).filter (fun q => dayOf q.timestamp = d)).map (fun q => q.value))
            = meanQ (((a :: l).filter (fun q => dayOf q.timestamp = d)).map (fun q => q.value)) :=
        fun d => meanQ_perm _ _ ((hfperm d).map _)
      have hday : ∀ d : Int,
          d ∈ dedupSorted ((sortByTs (a :: l)).map (fun q => dayOf q.timestamp)) ↔
            ∃ q ∈ (a :: l), dayOf q.timestamp = d := by
        intro d
        rw [mem_dedupSorted, List.mem_map]
        constructor
        · rintro ⟨q, hq, hqd⟩
          exact ⟨q, (mem_sortByTs (a :: l) q).mp hq, hqd⟩
        · rintro ⟨q, hq, hqd⟩
          exact ⟨q, (mem_sortByTs (a :: l) q).mpr hq, hqd⟩
      refine ⟨?_, ?_, ?_, ?_⟩
      · intro p hp
        rw [hout] at hp
        rcases (mem_dailyAggregate _ p).mp hp with ⟨d, hd, heq⟩
        subst heq
        refine ⟨d, rfl, ?_, ?_⟩
        · rcases (hday d).mp hd with ⟨q, hq, hqd⟩
          have : q ∈ (a :: l).filter (fun q => dayOf q.timestamp = d) :=
            List.mem_filter.mpr ⟨hq, by rw [decide_eq_true_eq]; exact hqd⟩
          exact List.ne_nil_of_mem this
        · exact hmean d
      · intro d hflt p hp hts
        rw [hout] at hp
        rcases (mem_dailyAggregate _ p).mp hp with ⟨d', hd', heq⟩
        subst heq
        have hdd : d' = d := by
          have : d' * 1440 = d * 1440 := hts
          omega
        subst hdd
        rcases (hday d').mp hd' with ⟨q, hq, hqd⟩
        have : q ∈ (a :: l).filter (fun q => dayOf q.timestamp = d') :=
          List.mem_filter.mpr ⟨hq, by rw [decide_eq_true_eq]; exact hqd⟩
        rw [hflt] at this
        cases this
      · rw [hout]
        exact dailyAggregate_ts_strict _ (sortByTs_sorted _)
      · rintro d ⟨q, hq, hqd⟩
        refine ⟨⟨d * 1440, meanQ (((sortByTs (a :: l)).filter
          (fun q => dayOf q.timestamp = d)).map (fun q => q.value))⟩, ?_, rfl⟩
        rw [hout]
        exact (mem_dailyAggregate _ _).mpr ⟨d, (hday d).mpr ⟨q, hq, hqd⟩, rfl⟩

/-- Witness for C7: the conjunction instantiated at the concrete two-day
hourly payload. -/
theorem C7_daily_mean_witness :
    (∀ p ∈ extract_hourly_data payloadHourlyDemo "PM10" "daily", ∃ d : Int,
        p.timestamp = d * 1440 ∧
        ((validHPointsOf payloadHourlyDemo "PM10").filter (fun q => dayOf q.timestamp = d)) ≠ [] ∧
        p.value = meanQ (((validHPointsOf payloadHourlyDemo "PM10").filter
          (fun q => dayOf q.timestamp = d)).map (fun q => q.value)))
    ∧ (∀ d : Int, ((validHPointsOf payloadHourlyDemo "PM10").filter
          (fun q => dayOf q.timestamp = d)) = [] →
        ∀ p ∈ extract_hourly_data payloadHourlyDemo "PM10" "daily", p.timestamp ≠ d * 1440)
    ∧ (((extract_hourly_data payloadHourlyDemo "PM10" "daily").map
          (fun p => p.timestamp)).Pairwise (· < ·))
    ∧ (∀ d : Int, (∃ q ∈ validHPointsOf payloadHourlyDemo "PM10", dayOf q.timestamp = d) →
        ∃ p ∈ extract_hourly_data payloadHourlyDemo "PM10" "daily", p.timestamp = d * 1440) :=
  C7_daily_mean payloadHourlyDemo "PM10"

/-- A matching line item that produced no value (without raising) does not
stop the scan: the loop moves on to the remaining items. -/
theorem scanItems_skip (species ritem avg : String) (item : Json) (rest : List Json)
    (hm : itemMatches item species ritem = .ok true)
    (ha : avg = "annual" → annualStep item = .ok none)
    (hmm : avg = "monthly" → monthlyStep item = .ok none) :
    scanItems species ritem avg (item :: rest) = scanItems species ritem avg rest := by
  simp only [scanItems, hm]
  by_cases h1 : avg = "annual"
  · simp [h1, ha h1]
  · by_cases h2 : avg = "monthly"
    · simp [h1, h2, hmm h2]
    · simp [h1, h2]

/-- C9: in annual/monthly extraction, a line item matching the species code,
the report-item id "7" and the `"Mean:"` prefix whose value fields are all
absent, sentinel or non-numeric does not terminate the search, and for a
payload with two matching items where only the second holds a valid annual
value, extraction returns the second item's value. -/
theorem C9_invalid_match_continues :
    (∀ (species ritem avg : String) (item : Json) (rest : List Json),
      itemMatches item species ritem = .ok true →
      (avg = "annual" → annualStep item = .ok none) →
      (avg = "monthly" → monthlyStep item = .ok none) →
      scanItems species ritem avg (item :: rest) = scanItems species ritem avg rest)
    ∧ (∀ (pt species ritem : String) (i1 i2 : Json) (v : ℚ),
      pollutant_mapping pt = some (species, ritem) →
      itemMatches i1 species ritem = .ok true →
      annualStep i1 = .ok none →
      itemMatches i2 species ritem = .ok true →
      annualStep i2 = .ok (some v) →
      extract_pollutant_data
        (Json.obj [("SiteReport", Json.obj [("ReportItem", Json.arr [i1, i2])])])
        pt "annual" = some (.annual v)) := by
  constructor
  · exact scanItems_skip
  · intro pt species ritem i1 i2 v hpm hm1 hs1 hm2 hs2
    have hitems : reportItemsOf
        (Json.obj [("SiteReport", Json.obj [("ReportItem", Json.arr [i1, i2])])]) =
        some [i1, i2] := rfl
    unfold extract_pollutant_data
    rw [hitems, hpm]
    dsimp only
    rw [scanItems_skip species ritem "annual" i1 [i2] hm1 (fun _ => hs1)
      (fun h => absurd h (by decide))]
    simp [scanItems, hm2, hs2]

/-- Witness for C9: the first matching item carries the sentinel, the second
the valid value "14"; extraction returns 14. -/
theorem C9_invalid_match_continues_witness :
    extract_pollutant_data
      (Json.obj [("SiteReport", Json.obj [("ReportItem", Json.arr [itemMeanSentinel, itemMean14])])])
      "PM10" "annual" = some (.annual 14) :=
  C9_invalid_match_continues.2 "PM10" "PM10" "7" itemMeanSentinel itemMean14 14
    rfl rfl rfl rfl rfl

/-- A value returned by the annual branch passed the presence, sentinel and
parse checks on the `@Annual` field. -/
theorem annualStep_some (item : Json) (v : ℚ) (h : annualStep item = .ok (some v)) :
    validNumeric (jget item "@Annual") v := by
  simp only [annualStep] at h
  by_cases hc : truthy (jget item "@Annual") = true ∧ ¬(jEqStr (jget item "@Annual") "-999" = true)
  · rw [if_pos hc] at h
    cases hp : pyFloat (jget item "@Annual") with
    | val q =>
        rw [hp] at h
        simp only [Except.ok.injEq, Option.some.injEq] at h
        subst h
        refine ⟨hc.1, ?_, hp⟩
        rcases hc with ⟨_, hc2⟩
        simpa using hc2
    | valueError => rw [hp] at h; simp at h
    | typeError => rw [hp] at h; simp at h
  · rw [if_neg hc] at h
    simp at h

/-- Every month value collected by the month loop passed the checks on some
month field of the item. -/
theorem collectMonths_origin (item : Json) :
    ∀ (fields : List (Nat × String)) (l : List (Nat × ℚ)),
      collectMonths item fields = .ok l →
      ∀ iv ∈ l, ∃ f ∈ fields, validNumeric (jget item ("@" ++ f.2)) iv.2
  | [], l, h => by
      intro iv hiv
      simp only [collectMonths, Except.ok.injEq] at h
      subst h
      cases hiv
  | (i, month) :: rest, l, h => by
      simp only [collectMonths] at h
      by_cases hc : truthy (jget item ("@" ++ month)) = true ∧
          ¬(jEqStr (jget item ("@" ++ month)) "-999" = true)
      · rw [if_pos hc] at h
        cases hp : pyFloat (jget item ("@" ++ month)) with
        | val q =>
            rw [hp] at h
            cases hrest : collectMonths item rest with
            | error e => rw [hrest] at h; simp [Except.map] at h
            | ok lr =>
                rw [hrest] at h
                simp only [Except.map, Except.ok.injEq] at h
                subst h
                intro iv hiv
                rcases List.mem_cons.mp hiv with h1 | h1
                · subst h1
                  refine ⟨(i, month), List.mem_cons_self _ _, hc.1, ?_, hp⟩
                  rcases hc with ⟨_, hc2⟩
                  simpa using hc2
                · rcases collectMonths_origin item rest lr hrest iv h1 with ⟨f, hf, hval⟩
                  exact ⟨f, List.mem_cons_of_mem _ hf, hval⟩
        | valueError =>
            rw [hp] at h
            intro iv hiv
            rcases collectMonths_origin item rest l h iv hiv with ⟨f, hf, hval⟩
            exact ⟨f, List.mem_cons_of_mem _ hf, hval⟩
        | typeError => rw [hp] at h; simp at h
      · rw [if_neg hc] at h
        intro iv hiv
        rcases collectMonths_origin item rest l h iv hiv with ⟨f, hf, hval⟩
        exact ⟨f, List.mem_cons_of_mem _ hf, hval⟩

/-- Every value of a monthly result passed the checks on one of the item's
twelve month fields. -/
theorem monthlyStep_some (item : Json) (m : List (Nat × ℚ))
    (h : monthlyStep item = .ok (some m)) :
    ∀ iv ∈ m, ∃ j ∈ itemMonthVals item, validNumeric j iv.2 := by
  unfold monthlyStep at h
  cases hcm : collectMonths item monthFields with
  | error e => cases e; rw [hcm] at h; simp at h
  | ok l =>
      rw [hcm] at h
      dsimp only at h
      by_cases hle : l.isEmpty
      · rw [if_pos hle] at h; simp at h
      · rw [if_neg hle] at h
        simp only [Except.ok.injEq, Option.some.injEq] at h
        rw [← h]
        intro iv hiv
        rcases collectMonths_origin item monthFields l hcm iv hiv with ⟨f, hf, hval⟩
        exact ⟨jget item ("@" ++ f.2), List.mem_map.mpr ⟨f, hf, rfl⟩, hval⟩

/-- Every value carried by a successful scan outcome passed the extractor
checks on a value field of one of the scanned items. -/
theorem scanItems_origin (species ritem : String) :
    ∀ (items : List Json) (avg : String) (r : ExtractResult),
      scanItems species ritem avg items = .ok (some r) →
      (∀ v : ℚ, r = .annual v → ∃ j ∈ annualValueFields items, validNumeric j v)
      ∧ (∀ m : List (Nat × ℚ), r = .monthly m →
          ∀ iv ∈ m, ∃ j ∈ monthlyValueFields items, validNumeric j iv.2)
  | [], avg, r, h => by simp [scanItems] at h
  | item :: rest, avg, r, h => by
      cases hm : itemMatches item species ritem with
      | error e => cases e; simp only [scanItems, hm] at h; simp at h
      | ok b =>
          cases b with
          | false =>
              simp only [scanItems, hm] at h
              have ih := scanItems_origin species ritem rest avg r h
              refine ⟨?_, ?_⟩
              · intro v hv
                rcases ih.1 v hv with ⟨j, hj, hval⟩
                exact ⟨j, List.mem_cons_of_mem _ hj, hval⟩
              · intro m hmr iv hiv
                rcases ih.2 m hmr iv hiv with ⟨j, hj, hval⟩
                refine ⟨j, ?_, hval⟩
                unfold monthlyValueFields at hj ⊢
                rw [List.flatMap_cons]
                exact List.mem_append_right _ hj
          | true =>
              simp only [scanItems, hm] at h
              by_cases h1 : avg = "annual"
              · rw [if_pos h1] at h
                cases hstep : annualStep item with
                | error e => cases e; rw [hstep] at h; simp at h
                | ok o =>
                    rw [hstep] at h
                    cases o with
                    | none =>
                        dsimp only at h
                        have ih := scanItems_origin species ritem rest avg r h
                        refine ⟨?_, ?_⟩
                        · intro v hv
                          rcases ih.1 v hv with ⟨j, hj, hval⟩
                          exact ⟨j, List.mem_cons_of_mem _ hj, hval⟩
                        · intro m hmr iv hiv
                          rcases ih.2 m hmr iv hiv with ⟨j, hj, hval⟩
                          refine ⟨j, ?_, hval⟩
                          unfold monthlyValueFields at hj ⊢
                          rw [List.flatMap_cons]
                          exact List.mem_append_right _ hj
                    | some q =>
                        simp only [Except.ok.injEq, Option.some.injEq] at h
                        refine ⟨?_, ?_⟩
                        · intro v hv
                          rw [← h] at hv
                          cases hv
                          exact ⟨jget item "@Annual", List.mem_cons_self _ _,
                            annualStep_some item q hstep⟩
                        · intro m hmr
                          rw [← h] at hmr
                          cases hmr
              · by_cases h2 : avg = "monthly"
                · rw [if_neg h1, if_pos h2] at h
                  cases hstep : monthlyStep item with
                  | error e => cases e; rw [hstep] at h; simp at h
                  | ok o =>
                      rw [hstep] at h
                      cases o with
                      | none =>
                          dsimp only at h
                          have ih := scanItems_origin species ritem rest avg r h
                          refine ⟨?_, ?_⟩
                          · intro v hv
                            rcases ih.1 v hv with ⟨j, hj, hval⟩
                            exact ⟨j, List.mem_cons_of_mem _ hj, hval⟩
                          · intro m hmr iv hiv
                            rcases ih.2 m hmr iv hiv with ⟨j, hj, hval⟩
                            refine ⟨j, ?_, hval⟩
                            unfold monthlyValueFields at hj ⊢
                            rw [List.flatMap_cons]
                            exact List.mem_append_right _ hj
                      | some lm =>
                          simp only [Except.ok.injEq, Option.some.injEq] at h
                          refine ⟨?_, ?_⟩
                          · intro v hv
                            rw [← h] at hv
                            cases hv
                          · intro m hmr iv hiv
                            rw [← h] at hmr
                            cases hmr
                            rcases monthlyStep_some item lm hstep iv hiv with ⟨j, hj, hval⟩
                            refine ⟨j, ?_, hval⟩
                            unfold monthlyValueFields
                            rw [List.flatMap_cons]
                            exact List.mem_append_left _ hj
                · rw [if_neg h1, if_neg h2] at h
                  have ih := scanItems_origin species ritem rest avg r h
                  refine ⟨?_, ?_⟩
                  · intro v hv
                    rcases ih.1 v hv with ⟨j, hj, hval⟩
                    exact ⟨j, List.mem_cons_of_mem _ hj, hval⟩
                  · intro m hmr iv hiv
                    rcases ih.2 m hmr iv hiv with ⟨j, hj, hval⟩
                    refine ⟨j, ?_, hval⟩
                    unfold monthlyValueFields at hj ⊢
                    rw [List.flatMap_cons]
                    exact List.mem_append_right _ hj

/-- A successful extraction implies a successful scan over the navigated
report items, under the species mapping of the pollutant. -/
theorem extract_pollutant_scan (data : Json) (pt avg : String) (r : ExtractResult)
    (h : extract_pollutant_data data pt avg = some r) :
    ∃ items species ritem, reportItemsOf data = some items ∧
      pollutant_mapping pt = some (species, ritem) ∧
      scanItems species ritem avg items = .ok (some r) := by
  unfold extract_pollutant_data at h
  cases hi : reportItemsOf data with
  | none => rw [hi] at h; simp at h
  | some items =>
      rw [hi] at h
      dsimp only at h
      cases hpm : pollutant_mapping pt with
      | none => rw [hpm] at h; simp at h
      | some sr =>
          obtain ⟨species, ritem⟩ := sr
          rw [hpm] at h
          dsimp only at h
          cases hs : scanItems species ritem avg items with
          | error e => cases e; rw [hs] at h; simp at h
          | ok ro =>
              rw [hs] at h
              dsimp only at h
              subst h
              exact ⟨items, species, ritem, rfl, rfl, hs⟩

/-- Each point of a hourly item step passed the checks on the `@Value`
field of its item. -/
theorem hourlyItemStep_some (item : Json) (pt : String) (p : HPoint)
    (h : hourlyItemStep item pt = .ok (some p)) :
    validNumeric (jget item "@Value") p.value := by
  cases item with
  | obj fields =>
      simp only [hourlyItemStep] at h
      by_cases hsc : jEqStr (jget (Json.obj fields) "@SpeciesCode") pt = true
      · rw [if_pos hsc] at h
        by_cases hc : truthy (jget (Json.obj fields) "@MeasurementDateGMT") = true ∧
            truthy (jget (Json.obj fields) "@Value") = true ∧
            ¬(jEqStr (jget (Json.obj fields) "@Value") "-999" = true)
        · rw [if_pos hc] at h
          cases hdt : parseDatetime (jget (Json.obj fields) "@MeasurementDateGMT") with
          | none =>
              rw [hdt] at h
              cases hpf : pyFloat (jget (Json.obj fields) "@Value") <;>
                rw [hpf] at h <;> simp at h
          | some t =>
              rw [hdt] at h
              cases hpf : pyFloat (jget (Json.obj fields) "@Value") with
              | val q =>
                  rw [hpf] at h
                  simp only [Except.ok.injEq, Option.some.injEq] at h
                  rw [← h]
                  exact ⟨hc.2.1, by rcases hc with ⟨_, _, hc3⟩; simpa using hc3, hpf⟩
              | valueError => rw [hpf] at h; simp at h
              | typeError => rw [hpf] at h; simp at h
        · rw [if_neg hc] at h; simp at h
      · rw [if_neg hsc] at h; simp at h
  | null => simp [hourlyItemStep] at h
  | str s => simp [hourlyItemStep] at h
  | num q => simp [hourlyItemStep] at h
  | arr elems => simp [hourlyItemStep] at h

/-- Every collected hourly point passed the checks on the `@Value` field of
one of the data items. -/
theorem collectHPoints_origin (pt : String) :
    ∀ (items : List Json) (l : List HPoint), collectHPoints pt items = .ok l →
      ∀ p ∈ l, ∃ j ∈ hourlyValueFields items, validNumeric j p.value
  | [], l, h => by
      intro p hp
      simp only [collectHPoints, Except.ok.injEq] at h
      rw [← h] at hp
      cases hp
  | item :: rest, l, h => by
      cases hs : hourlyItemStep item pt with
      | error e => cases e; simp only [collectHPoints, hs] at h; simp at h
      | ok o =>
          simp only [collectHPoints, hs] at h
          cases o with
          | none =>
              intro p hp
              rcases collectHPoints_origin pt rest l h p hp with ⟨j, hj, hval⟩
              exact ⟨j, List.mem_cons_of_mem _ hj, hval⟩
          | some p0 =>
              cases hrest : collectHPoints pt rest with
              | error e => rw [hrest] at h; simp [Except.map] at h
              | ok lr =>
                  rw [hrest] at h
                  simp only [Except.map, Except.ok.injEq] at h
                  rw [← h]
                  intro p hp
                  rcases List.mem_cons.mp hp with h1 | h1
                  · subst h1
                    exact ⟨jget item "@Value", List.mem_cons_self _ _,
                      hourlyItemStep_some item pt p hs⟩
                  · rcases collectHPoints_origin pt rest lr hrest p h1 with ⟨j, hj, hval⟩
                    exact ⟨j, List.mem_cons_of_mem _ hj, hval⟩

/-- Every valid point of the filter stage passed the checks on the `@Value`
field of one of the payload's data items. -/
theorem validHPointsOf_origin (data : Json) (pt : String) (p : HPoint)
    (hp : p ∈ validHPointsOf data pt) :
    ∃ items, hourlyItemsOf data = some items ∧
      ∃ j ∈ hourlyValueFields items, validNumeric j p.value := by
  unfold validHPointsOf at hp
  cases hi : hourlyItemsOf data with
  | none => rw [hi] at hp; simp at hp
  | some items =>
      rw [hi] at hp
      dsimp only at hp
      cases hc : collectHPoints pt items with
      | error e => cases e; rw [hc] at hp; simp at hp
      | ok l =>
          rw [hc] at hp
          dsimp only at hp
          exact ⟨items, rfl, collectHPoints_origin pt items l hc p hp⟩

/-- A defined value emitted by a head-of-filter lookup comes from a list
member. -/
theorem head_filter_map_values {α : Type} (l : List α) (p : α → Bool) (f : α → ℚ) (v : ℚ)
    (h : ((l.filter p).head?).map f = some v) : ∃ r ∈ l, f r = v := by
  rw [Option.map_eq_some'] at h
  rcases h with ⟨r, hr, hval⟩
  cases hfil : (l.filter p) with
  | nil => rw [hfil] at hr; simp at hr
  | cons b t =>
      rw [hfil] at hr
      simp only [List.head?_cons, Option.some.injEq] at hr
      subst hr
      exact ⟨b, (List.mem_filter.mp (hfil ▸ List.mem_cons_self b t)).1, hval⟩

/-- Every defined value of a gap-filled annual series is the value of one of
the series' rows. -/
theorem renderAnnualSeries_values (rows : List AnnRow) (y : Int) (v : ℚ)
    (h : (y, some v) ∈ renderAnnualSeries rows) : ∃ r ∈ rows, r.value = v := by
  cases rows with
  | nil => simp [renderAnnualSeries] at h
  | cons a rest =>
      have hne : ¬((a :: rest).isEmpty = true) := by simp
      unfold renderAnnualSeries at h
      rw [if_neg hne] at h
      rcases List.mem_map.mp h with ⟨y', hy', heq⟩
      simp only [Prod.mk.injEq] at heq
      rcases heq with ⟨h1, h2⟩
      rcases head_filter_map_values _ _ _ _ h2 with ⟨r, hr, hval⟩
      exact ⟨r, (List.perm_insertionSort (fun x y : AnnRow => x.year ≤ y.year)
        (a :: rest)).mem_iff.mp hr, hval⟩

/-- Every defined value of a gap-filled monthly series is the value of one of
the series' rows. -/
theorem normalizeMonthlySeries_values (rows : List MRow) (m : Int) (v : ℚ)
    (h : (m, some v) ∈ normalizeMonthlySeries rows) : ∃ r ∈ rows, r.value = v := by
  cases rows with
  | nil => simp [normalizeMonthlySeries] at h
  | cons a rest =>
      have hne : ¬((a :: rest).isEmpty = true) := by simp
      unfold normalizeMonthlySeries at h
      rw [if_neg hne] at h
      rcases List.mem_map.mp h with ⟨m', hm', heq⟩
      simp only [Prod.mk.injEq] at heq
      rcases heq with ⟨h1, h2⟩
      rcases head_filter_map_values _ _ _ _ h2 with ⟨r, hr, hval⟩
      exact ⟨r, (List.perm_insertionSort (fun x y : MRow => x.month ≤ y.month)
        (a :: rest)).mem_iff.mp hr, hval⟩

/-- Every defined value of a tolerance-filled series is the value of one of
the observed points. -/
theorem fillSeries_values (pts : List HPoint) (step : Nat) (tol t : Int) (v : ℚ)
    (h : (t, some v) ∈ fillSeries pts step tol) : ∃ p ∈ pts, p.value = v := by
  unfold fillSeries at h
  rcases List.mem_map.mp h with ⟨t', ht', heq⟩
  simp only [Prod.mk.injEq] at heq
  rcases heq with ⟨h1, h2⟩
  unfold valueAt tolCandidates at h2
  rcases head_filter_map_values _ _ _ _ h2 with ⟨p, hp, hval⟩
  exact ⟨p, (mem_sortByTs pts p).mp hp, hval⟩

/-- C3: a field value that is absent/empty, equal to the sentinel string
`"-999"`, or unparseable as a float never appears in an extraction result:
every value of an annual, monthly or hourly extraction originates in a field
that was truthy, non-sentinel and float-parseable; a daily value is the mean
of a nonempty batch of such values; and the gap-filled Series of every
resolution only ever emit values drawn from their input rows, so no such
value reaches any output Series either. -/
theorem C3_sentinel_never_survives :
    (∀ (data : Json) (pt avg : String) (v : ℚ),
      extract_pollutant_data data pt avg = some (.annual v) →
      ∃ items, reportItemsOf data = some items ∧
        ∃ j ∈ annualValueFields items, validNumeric j v)
    ∧ (∀ (data : Json) (pt avg : String) (m : List (Nat × ℚ)),
      extract_pollutant_data data pt avg = some (.monthly m) →
      ∃ items, reportItemsOf data = some items ∧
        ∀ iv ∈ m, ∃ j ∈ monthlyValueFields items, validNumeric j iv.2)
    ∧ (∀ (data : Json) (pt : String) (p : HPoint),
      p ∈ extract_hourly_data data pt "hourly" →
      ∃ items, hourlyItemsOf data = some items ∧
        ∃ j ∈ hourlyValueFields items, validNumeric j p.value)
    ∧ (∀ (data : Json) (pt : String) (p : HPoint),
      p ∈ extract_hourly_data data pt "daily" →
      ∃ l : List ℚ, l ≠ [] ∧ p.value = meanQ l ∧
        ∀ v ∈ l, ∃ items, hourlyItemsOf data = some items ∧
          ∃ j ∈ hourlyValueFields items, validNumeric j v)
    ∧ (∀ (rows : List AnnRow) (y : Int) (v : ℚ),
      (y, some v) ∈ renderAnnualSeries rows → ∃ r ∈ rows, r.value = v)
    ∧ (∀ (rows : List MRow) (m : Int) (v : ℚ),
      (m, some v) ∈ normalizeMonthlySeries rows → ∃ r ∈ rows, r.value = v)
    ∧ (∀ (pts : List HPoint) (step : Nat) (tol t : Int) (v : ℚ),
      (t, some v) ∈ fillSeries pts step tol → ∃ p ∈ pts, p.value = v) := by
  have hhourly : ∀ (data : Json) (pt : String) (p : HPoint),
      p ∈ extract_hourly_data data pt "hourly" → p ∈ validHPointsOf data pt := by
    intro data pt p hp
    unfold extract_hourly_data at hp
    cases hv : validHPointsOf data pt with
    | nil => rw [hv] at hp; simp at hp
    | cons a l =>
        rw [hv] at hp
        simp only [List.isEmpty_cons, Bool.false_eq_true, if_false, if_pos rfl] at hp
        rw [← hv] at hp ⊢
        exact (mem_sortByTs _ p).mp hp
  refine ⟨?_, ?_, ?_, ?_, renderAnnualSeries_values, normalizeMonthlySeries_values,
    fillSeries_values⟩
  · intro data pt avg v h
    rcases extract_pollutant_scan data pt avg _ h with ⟨items, species, ritem, hi, hpm, hs⟩
    exact ⟨items, hi, (scanItems_origin species ritem items avg _ hs).1 v rfl⟩
  · intro data pt avg m h
    rcases extract_pollutant_scan data pt avg _ h with ⟨items, species, ritem, hi, hpm, hs⟩
    exact ⟨items, hi, (scanItems_origin species ritem items avg _ hs).2 m rfl⟩
  · intro data pt p hp
    exact validHPointsOf_origin data pt p (hhourly data pt p hp)
  · intro data pt p hp
    unfold extract_hourly_data at hp
    cases hv : validHPointsOf data pt with
    | nil => rw [hv] at hp; simp at hp
    | cons a l =>
        rw [hv] at hp
        simp only [List.isEmpty_cons, Bool.false_eq_true, if_false] at hp
        rw [if_pos trivial] at hp
        rcases (mem_dailyAggregate _ p).mp hp with ⟨d, hd, heq⟩
        subst heq
        refine ⟨((sortByTs (a :: l)).filter
            (fun q => dayOf q.timestamp = d)).map (fun q => q.value), ?_, rfl, ?_⟩
        · rw [mem_dedupSorted] at hd
          rcases List.mem_map.mp hd with ⟨q, hq, hqd⟩
          have : q ∈ (sortByTs (a :: l)).filter (fun q => dayOf q.timestamp = d) :=
            List.mem_filter.mpr ⟨hq, by rw [decide_eq_true_eq]; exact hqd⟩
          intro hemp
          rw [List.map_eq_nil_iff] at hemp
          rw [hemp] at this
          cases this
        · intro v hv'
          rcases List.mem_map.mp hv' with ⟨q, hq, hqv⟩
          have hq' : q ∈ validHPointsOf data pt := by
            rw [hv]
            exact (mem_sortByTs _ q).mp (List.mem_filter.mp hq).1
          rcases validHPointsOf_origin data pt q hq' with ⟨items, hi, hj⟩
          rw [← hqv]
          exact ⟨items, hi, hj⟩

/-- Witness for C3: the annual origin conjunct instantiated on the concrete
valid payload, whose extracted value 14.2 must stem from a surviving field. -/
theorem C3_sentinel_never_survives_witness :
    ∃ items, reportItemsOf (annualPayload itemMean142) = some items ∧
      ∃ j ∈ annualValueFields items,
        validNumeric j ((14 : ℚ) + (2 : ℚ) / (10 : ℚ) ^ 1) :=
  C3_sentinel_never_survives.1 (annualPayload itemMean142) "PM10" "annual"
    ((14 : ℚ) + (2 : ℚ) / (10 : ℚ) ^ 1) rfl
